import Mathlib

/-!
# ExpenseTracker — verification of the backend core

Shallow embedding of the ExpenseTracker backend (`src/server/index.js`) and
the client permission function (`src/contexts/AuthContext.tsx`).

Conventions of the embedding:
* SQL `DECIMAL` amounts are rationals (`ℚ`);
* dates and timestamps are natural numbers (larger = later); `Date.now()`
  is passed explicitly as a `now : Nat` argument;
* user and transaction ids are natural numbers; roles are the raw strings
  the code switches on;
* the external JWT library and the external Postgres date engine are
  modelled as parameters (the outcome of `jwt.verify`, the cutoff date
  computed by `CURRENT_DATE - INTERVAL`), everything else is translated
  from the JavaScript / SQL source;
* the in-process `memoryCache` `Map` is an association list; the external
  Redis store is an association list of entries with expiry, manipulated
  only through the modelled `redis.keys`/`redis.del`/`redis.setex` calls.
-/

namespace ExpenseTracker

/-- `type` column of the `transactions` table: `CHECK (type IN ('income', 'expense'))`. -/
inductive TxType where
  | income
  | expense
deriving DecidableEq, Repr

/-- A row of the `transactions` table (the columns the endpoints read). -/
structure Transaction where
  id : Nat
  userId : Nat
  type : TxType
  amount : ℚ
  description : String
  category : String
  date : Nat
  createdAt : Nat
deriving DecidableEq, Repr

/-- A row of the `users` table as selected by `authenticateToken`
(`SELECT id, email, name, role FROM users`). -/
structure User where
  id : Nat
  email : String
  name : String
  role : String
deriving DecidableEq, Repr

/-! ## Access control

`hasPermission` from `src/contexts/AuthContext.tsx` (lines 32–48): the client
permission function, a switch on the requested action given the current
(possibly absent) user. `requireRole` from `src/server/index.js`
(lines 124–136): the server middleware, membership of the caller role in the
allowed list. -/

/-- The action argument of `hasPermission` (`"read" | "write" | "admin"`). -/
inductive Action where
  | read
  | write
  | admin
deriving DecidableEq, Repr

/-- `hasPermission` from `AuthContext.tsx`: `if (!user) return false` then a
switch on the action: `admin` requires role `"admin"`, `write` requires role
`"admin"` or `"user"`, `read` returns `true` for every authenticated user. -/
def hasPermission (user : Option User) (action : Action) : Bool :=
  match user with
  | none => false
  | some u =>
    match action with
    | .admin => u.role == "admin"
    | .write => u.role == "admin" || u.role == "user"
    | .read => true

/-- `requireRole(roles)` from `index.js`: with an authenticated `req.user`,
passes iff `roles.includes(req.user.role)`; otherwise the request stops with
403 (`Insufficient permissions`). Returns `true` when the middleware calls
`next()`. -/
def requireRole (roles : List String) (u : User) : Bool :=
  roles.contains u.role

/-! ## Authentication (`authenticateToken`, `index.js` lines 100–121)

The JWT library is external; a presented token is modelled by the outcome of
the header lookup and of `jwt.verify`:
* no `Authorization` header / no bearer token,
* `jwt.verify` throws (invalid signature or expired token),
* `jwt.verify` succeeds and yields the embedded `userId`. -/

/-- Outcome of extracting and verifying the bearer token of a request. -/
inductive TokenOutcome where
  | missing
  | badSignatureOrExpired
  | verified (userId : Nat)
deriving DecidableEq, Repr

/-- Result of the authentication middleware: either the request proceeds with
a principal, or it is terminated with an HTTP status. -/
inductive AuthResult where
  | ok (u : User)
  | err (status : Nat)
deriving DecidableEq, Repr

/-- `SELECT id, email, name, role FROM users WHERE id = $1` over the user
table: the first row with the given id. -/
def findUser (users : List User) (uid : Nat) : Option User :=
  users.find? (fun u => u.id == uid)

/-- `authenticateToken` from `index.js`: 401 when no token is presented,
403 when `jwt.verify` throws (`Invalid or expired token`), 401 when the
referenced user row no longer exists (`Invalid token`), otherwise the request
proceeds with `req.user` set to the fetched row. -/
def authenticateToken (users : List User) (tok : TokenOutcome) : AuthResult :=
  match tok with
  | .missing => .err 401
  | .badSignatureOrExpired => .err 403
  | .verified uid =>
    match findUser users uid with
    | none => .err 401
    | some u => .ok u

/-! ## Cache layer (`index.js` lines 150–209)

Two backends sit behind `getFromCache` / `setCache` / `invalidateCache`:
* the in-process `memoryCache` `Map`, entries `\x7bdata, expires\x7d` with
  `expires = Date.now() + ttl * 1000` (the `_memory` functions below);
* the external Redis store, driven through `redis.get` / `redis.setex` /
  `redis.keys(pattern)` / `redis.del(keys)` (the `_redis` functions below;
  `KEYS` does glob matching, of whose syntax only `*` is modelled because no
  pattern the program builds contains another metacharacter).
Every branch is wrapped in `try/catch`: a thrown backend error is logged and
the function returns `null` (get) or returns normally (set/invalidate). -/

/-- JavaScript `sub.isPrefixOf`-style helper: does `sub` occur as a
contiguous substring of the character list? (`String.prototype.includes`.) -/
def charsInclude (sub : List Char) : List Char → Bool
  | [] => sub.isEmpty
  | c :: cs => sub.isPrefixOf (c :: cs) || charsInclude sub cs

/-- JavaScript `s.includes(sub)`. -/
def strIncludes (s sub : String) : Bool :=
  charsInclude sub.data s.data

/-- JavaScript `pattern.replace("*", "")`: removes the **first** occurrence
of `*` only. -/
def removeFirstStar : List Char → List Char
  | [] => []
  | c :: cs => if c = '*' then cs else c :: removeFirstStar cs

/-- `pattern.replace("*", "")` lifted to `String`. -/
def jsReplaceStar (p : String) : String :=
  ⟨removeFirstStar p.data⟩

/-- A `memoryCache` entry: `\x7b data, expires: Date.now() + ttl * 1000 \x7d`. -/
structure MemEntry (α : Type) where
  data : α
  expires : Nat
deriving DecidableEq, Repr

/-- The `memoryCache` `Map`, as an association list in insertion order. -/
abbrev MemCache (α : Type) : Type := List (String × MemEntry α)

/-- JavaScript `Map.prototype.get`. -/
def mapGet {α : Type} (k : String) (m : MemCache α) : Option (MemEntry α) :=
  (m.find? (fun kv => kv.1 == k)).map (fun kv => kv.2)

/-- JavaScript `Map.prototype.set`: overwrite in place or append. -/
def mapSet {α : Type} (k : String) (e : MemEntry α) : MemCache α → MemCache α
  | [] => [(k, e)]
  | kv :: rest => if kv.1 == k then (k, e) :: rest else kv :: mapSet k e rest

/-- JavaScript `Map.prototype.delete`. -/
def mapDelete {α : Type} (k : String) (m : MemCache α) : MemCache α :=
  m.filter (fun kv => !(kv.1 == k))

/-- Memory branch of `getFromCache`: return the entry's data when it exists
and `cached.expires > Date.now()`; otherwise delete the key and miss.
Returns the value (`null` = `none`) and the updated map. -/
def getFromCache_memory {α : Type} (now : Nat) (key : String) (m : MemCache α) :
    Option α × MemCache α :=
  match mapGet key m with
  | some e => if now < e.expires then (some e.data, m) else (none, mapDelete key m)
  | none => (none, mapDelete key m)

/-- Memory branch of `setCache`: store `\x7b data, expires: Date.now() + ttl*1000 \x7d`
(`ttl` in seconds, default 900). -/
def setCache_memory {α : Type} (now : Nat) (key : String) (data : α) (ttl : Nat)
    (m : MemCache α) : MemCache α :=
  mapSet key ⟨data, now + ttl * 1000⟩ m

/-- Memory branch of `invalidateCache`: delete every key `k` with
`k.includes(pattern.replace("*", ""))`. -/
def invalidateCache_memory {α : Type} (pattern : String) (m : MemCache α) : MemCache α :=
  m.filter (fun kv => !(strIncludes kv.1 (jsReplaceStar pattern)))

/-- Does `f` accept some suffix (the whole list included) of the input?
This is the loop a multi-character wildcard performs. -/
def anySuffix (f : List Char → Bool) : List Char → Bool
  | [] => f []
  | c :: cs => f (c :: cs) || anySuffix f cs

/-- Redis `KEYS` glob matching, restricted to the `*` metacharacter (the
only one the program could ever send; the patterns it actually sends are
literal). -/
def globMatch : List Char → List Char → Bool
  | [], s => s.isEmpty
  | '*' :: ps, s => anySuffix (globMatch ps) s
  | _ :: _, [] => false
  | p :: ps, c :: cs => p == c && globMatch ps cs

/-- The external Redis store: keys with serialized payloads (expiry is kept
by Redis itself and does not matter for invalidation, so entries are plain
key/value pairs here). -/
abbrev RedisStore (α : Type) : Type := List (String × α)

/-- `redis.keys(pattern)`: all stored keys matching the glob `pattern`. -/
def redisKeys {α : Type} (pattern : String) (r : RedisStore α) : List String :=
  (r.map (fun kv => kv.1)).filter (fun k => globMatch pattern.data k.data)

/-- Redis branch of `invalidateCache`: `keys = redis.keys(pattern)`, then
`redis.del(keys)` when non-empty (deleting nothing is the same as skipping). -/
def invalidateCache_redis {α : Type} (pattern : String) (r : RedisStore α) : RedisStore α :=
  let ks := redisKeys pattern r
  r.filter (fun kv => !(ks.contains kv.1))

/-- The `try/catch` around the Redis branch of `getFromCache`: the backend
interaction (`redis.get` + `JSON.parse`) either throws or produces
`null`/a payload; a thrown error is logged and the function returns `null`,
so the caller proceeds exactly as on a miss. -/
def getFromCache_redis {α : Type} (fetch : Except String (Option α)) : Option α :=
  match fetch with
  | .error _ => none
  | .ok v => v

/-! ## Transaction listing (`GET /api/transactions`, `index.js` lines 409–459)

The SQL semantics is embedded directly: `WHERE user_id = $1` plus, when the
search string is non-empty, `ILIKE` on description or category against the
pattern `%search%`; `ORDER BY date DESC, created_at DESC`;
`LIMIT limit OFFSET (page-1)*limit`; a second `COUNT(*)` query over the same
`WHERE` clause; `totalPages = Math.ceil(totalCount / limit)`. -/

/-- Postgres `LIKE` pattern matching over characters: `%` matches any
sequence (via `anySuffix`), `_` any single character, any other pattern
character itself. `LIKE`'s escape character `\\` is not modelled: no
theorem below concerns a search string containing a backslash (the amended
listing contract explicitly excludes `%`, `_` and `\\` from the search
string, and the counterexample uses `%`), so no pattern whose behaviour the
theorems rely on contains an escape sequence. -/
def likeMatch : (pat : List Char) → (s : List Char) → Bool
  | [], s => s.isEmpty
  | p :: ps, [] => if p = '%' then anySuffix (likeMatch ps) [] else false
  | p :: ps, c :: cs =>
    if p = '%' then anySuffix (likeMatch ps) (c :: cs)
    else if p = '_' then likeMatch ps cs
    else p == c && likeMatch ps cs

/-- Postgres `s ILIKE pat`: case-insensitive `LIKE` (both sides lowered). -/
def ilike (s pat : String) : Bool :=
  likeMatch (pat.data.map Char.toLower) (s.data.map Char.toLower)

/-- The `WHERE` clause of the listing queries: owned by `userId` and, when
`search` is non-empty (`if (search)` — the empty string is falsy),
`description ILIKE %search% OR category ILIKE %search%`. -/
def rowMatches (userId : Nat) (search : String) (t : Transaction) : Bool :=
  t.userId == userId &&
    (search == "" ||
      ilike t.description ("%" ++ search ++ "%") ||
      ilike t.category ("%" ++ search ++ "%"))

/-- `ORDER BY date DESC, created_at DESC`: row `a` may precede row `b`. -/
def txBefore (a b : Transaction) : Bool :=
  Nat.blt b.date a.date || (Nat.beq b.date a.date && Nat.ble b.createdAt a.createdAt)

/-- The `pagination` object of the listing response. -/
structure Pagination where
  currentPage : Nat
  totalPages : Nat
  totalCount : Nat
  hasNext : Bool
  hasPrev : Bool
deriving DecidableEq, Repr

/-- The `GET /api/transactions` response body. -/
structure ListResult where
  transactions : List Transaction
  pagination : Pagination
deriving DecidableEq, Repr

/-- The `GET /api/transactions` handler over the transactions table `db`
(for a caller with id `userId`, 1-based `page`, page size `limit`, and
search string `search`); `Math.ceil(totalCount / limit)` is `Int.ceil` of
the exact rational quotient, which agrees with the float computation at
every reachable magnitude. -/
def listTransactions (db : List Transaction) (userId page limit : Nat)
    (search : String) : ListResult :=
  let offset := (page - 1) * limit
  let filtered := db.filter (rowMatches userId search)
  let ordered := filtered.mergeSort txBefore
  let totalCount := filtered.length
  let totalPages := (⌈(totalCount : ℚ) / (limit : ℚ)⌉).toNat
  { transactions := (ordered.drop offset).take limit,
    pagination :=
      { currentPage := page, totalPages := totalPages, totalCount := totalCount,
        hasNext := Nat.blt page totalPages, hasPrev := Nat.blt 1 page } }

/-! ## Transaction writes: ownership check and cache invalidation

`PUT /api/transactions/:id` (lines 499–550) and
`DELETE /api/transactions/:id` (lines 552–582) run, after
`authenticateToken` and `requireRole(["admin", "user"])`:
`SELECT id FROM transactions WHERE id = $1` — with `AND user_id = $2` added
when the caller is not an admin — answering 404 when no row comes back, and
otherwise performing the write and invalidating the cache for
`analytics:$\x7bcallerId\x7d` and `overview:$\x7bcallerId\x7d` (the *caller*'s id,
`req.user.id`). `POST /api/transactions` (lines 461–497) performs the same
two invalidations after inserting. -/

/-- The ownership check query of the PUT and DELETE handlers. -/
def ownerCheckRows (db : List Transaction) (role : String) (callerId txId : Nat) :
    List Transaction :=
  db.filter (fun t => t.id == txId && (role == "admin" || t.userId == callerId))

/-- Status produced by the `PUT /api/transactions/:id` middleware chain and
ownership check: 403 from `requireRole(["admin", "user"])`, 404 when the
check query returns no row, 200 when the handler reaches the `UPDATE`. -/
def putTransactionStatus (db : List Transaction) (caller : User) (txId : Nat) : Nat :=
  if requireRole ["admin", "user"] caller = false then 403
  else if (ownerCheckRows db caller.role caller.id txId).isEmpty then 404
  else 200

/-- Status produced by the `DELETE /api/transactions/:id` middleware chain
and ownership check (the handler repeats the PUT logic verbatim). -/
def deleteTransactionStatus (db : List Transaction) (caller : User) (txId : Nat) : Nat :=
  if requireRole ["admin", "user"] caller = false then 403
  else if (ownerCheckRows db caller.role caller.id txId).isEmpty then 404
  else 200

/-- `getCacheKey(prefix, userId, params)` from `index.js` lines 151–153. -/
def getCacheKey (pre : String) (userId : Nat) (params : String) : String :=
  pre ++ ":" ++ toString userId ++ (if params == "" then "" else ":" ++ params)

/-- The two `invalidateCache` calls every successful transaction write
performs, on the memory backend: patterns `analytics:$\x7bcallerId\x7d` then
`overview:$\x7bcallerId\x7d`, with `callerId = req.user.id`. -/
def writeInvalidation_memory {α : Type} (callerId : Nat) (m : MemCache α) : MemCache α :=
  invalidateCache_memory ("overview:" ++ toString callerId)
    (invalidateCache_memory ("analytics:" ++ toString callerId) m)

/-- The same two `invalidateCache` calls on the Redis backend. -/
def writeInvalidation_redis {α : Type} (callerId : Nat) (r : RedisStore α) : RedisStore α :=
  invalidateCache_redis ("overview:" ++ toString callerId)
    (invalidateCache_redis ("analytics:" ++ toString callerId) r)

/-! ## Analytics (`index.js` lines 585–736)

The Postgres date engine is external and is passed in as two functions:
`monthOf` maps a stored date to its `TO_CHAR(date, 'YYYY-MM')` bucket
(months numbered so that later dates get larger bucket numbers), and
`monthsAgo m` is the day-number of `CURRENT_DATE - INTERVAL 'm months'`. -/

/-- `SUM(CASE WHEN type = ty THEN amount ELSE 0 END)` over a row set: SQL
`SUM` is `NULL` on an empty set. -/
def sqlSumCase (rows : List Transaction) (ty : TxType) : Option ℚ :=
  if rows.isEmpty then none
  else some ((rows.map (fun t => if t.type == ty then t.amount else 0)).sum)

/-- `Number.parseFloat(x) || 0`: a SQL `NULL` parses to `NaN` and is coerced
to `0`; a numeric value stays itself (`0` is falsy but `0 || 0` is `0`). -/
def jsNumOrZero (o : Option ℚ) : ℚ :=
  match o with
  | none => 0
  | some q => q

/-- One row of a monthly-trend result (`month, income, expenses`). -/
structure TrendRow where
  month : Nat
  income : ℚ
  expenses : ℚ
deriving DecidableEq, Repr

/-- The monthly-trend query over a row set: `GROUP BY TO_CHAR(date,'YYYY-MM')`
with the two `SUM(CASE ...)` aggregates, `ORDER BY month`. -/
def trendRows (monthOf : Nat → Nat) (rows : List Transaction) : List TrendRow :=
  let months := ((rows.map (fun t => monthOf t.date)).dedup).mergeSort Nat.ble
  months.map (fun m =>
    let bucket := rows.filter (fun t => monthOf t.date == m)
    { month := m,
      income := jsNumOrZero (sqlSumCase bucket .income),
      expenses := jsNumOrZero (sqlSumCase bucket .expense) })

/-- `WHERE user_id = $1` over the transactions table. -/
def userRows (db : List Transaction) (uid : Nat) : List Transaction :=
  db.filter (fun t => t.userId == uid)

/-- The `GET /api/analytics/overview` response body. -/
structure Overview where
  totalIncome : ℚ
  totalExpenses : ℚ
  balance : ℚ
  transactionCount : Nat
  monthlyTrend : List TrendRow
deriving DecidableEq, Repr

/-- The `GET /api/analytics/overview` handler (cache aside): the overview
query aggregates all of the caller's rows; the trend query is restricted to
`date >= CURRENT_DATE - INTERVAL '6 months'` (`sixMonthsAgo`). -/
def analyticsOverview (db : List Transaction) (uid : Nat) (monthOf : Nat → Nat)
    (sixMonthsAgo : Nat) : Overview :=
  let mine := userRows db uid
  let totalIncome := jsNumOrZero (sqlSumCase mine .income)
  let totalExpenses := jsNumOrZero (sqlSumCase mine .expense)
  { totalIncome := totalIncome,
    totalExpenses := totalExpenses,
    balance := totalIncome - totalExpenses,
    transactionCount := mine.length,
    monthlyTrend := trendRows monthOf (mine.filter (fun t => sixMonthsAgo ≤ t.date)) }

/-- The `switch (timeRange)` of `GET /api/analytics/detailed`: months of the
trailing window, defaulting to 12. -/
def timeRangeMonths (timeRange : String) : Nat :=
  if timeRange == "3months" then 3
  else if timeRange == "6months" then 6
  else if timeRange == "12months" then 12
  else if timeRange == "2years" then 24
  else 12

/-- The expense rows feeding the category query:
`WHERE user_id = $1 AND type = 'expense' AND date >= since`. -/
def expenseRows (db : List Transaction) (uid since : Nat) : List Transaction :=
  db.filter (fun t => t.userId == uid && t.type == TxType.expense && since ≤ t.date)

/-- The category query over the expense rows: `GROUP BY category` with
`SUM(amount)` and `COUNT(*)`, `ORDER BY amount DESC`. Each result row is
`(category, amount, count)`. -/
def categoryRows (rows : List Transaction) : List (String × ℚ × Nat) :=
  let cats := (rows.map (fun t => t.category)).dedup
  let grouped := cats.map (fun c =>
    let bucket := rows.filter (fun t => t.category == c)
    (c, ((bucket.map (fun t => t.amount)).sum, bucket.length)))
  grouped.mergeSort (fun a b => decide (b.2.1 ≤ a.2.1))

/-- One entry of `categoryBreakdown`. -/
structure CatEntry where
  category : String
  amount : ℚ
  percentage : ℚ
  count : Nat
deriving DecidableEq, Repr

/-- The `GET /api/analytics/detailed` response body (`yearlyComparison` has
no observable element type: the handler never constructs an element). -/
structure DetailedAnalytics where
  monthlyTrends : List TrendRow
  categoryBreakdown : List CatEntry
  yearlyComparison : List Unit
deriving DecidableEq, Repr

/-- Lines 709–716 of the handler: `totalExpenses` is the `reduce` of the
category-row amounts, and each row is decorated with
`percentage = totalExpenses > 0 ? amount / totalExpenses * 100 : 0`. -/
def categoryBreakdownOf (rows : List Transaction) : List CatEntry :=
  let cr := categoryRows rows
  let totalExpenses := (cr.map (fun r => r.2.1)).sum
  cr.map (fun r =>
    { category := r.1, amount := r.2.1,
      percentage := if 0 < totalExpenses then r.2.1 / totalExpenses * 100 else 0,
      count := r.2.2 })

/-- The `GET /api/analytics/detailed` handler: window from the `timeRange`
switch; trends over the caller's rows in the window; the category breakdown
over the window's expense rows; `yearlyComparison` hard-coded `[]`. -/
def analyticsDetailed (db : List Transaction) (uid : Nat) (timeRange : String)
    (monthOf : Nat → Nat) (monthsAgo : Nat → Nat) : DetailedAnalytics :=
  let since := monthsAgo (timeRangeMonths timeRange)
  { monthlyTrends :=
      trendRows monthOf (db.filter (fun t => t.userId == uid && since ≤ t.date)),
    categoryBreakdown := categoryBreakdownOf (expenseRows db uid since),
    yearlyComparison := [] }

/-! ## Supporting lemmas -/

/-- `SUM(CASE WHEN type = ty THEN amount ELSE 0 END)` equals the sum of the
amounts of the rows of that type. -/
theorem sumCase_eq_filterSum (rows : List Transaction) (ty : TxType) :
    (rows.map (fun t => if t.type == ty then t.amount else 0)).sum
      = ((rows.filter (fun t => t.type == ty)).map (fun t => t.amount)).sum := by
  induction rows with
  | nil => rfl
  | cons t rest ih =>
    simp only [List.map_cons, List.sum_cons, List.filter_cons, ih]
    cases h : t.type == ty
    · simp [h]
    · simp [h]

/-- The JavaScript coercion of a SQL aggregate: `NULL` (empty row set)
becomes `0`, otherwise the aggregate value itself. -/
theorem jsNumOrZero_sqlSumCase (rows : List Transaction) (ty : TxType) :
    jsNumOrZero (sqlSumCase rows ty)
      = (rows.map (fun t => if t.type == ty then t.amount else 0)).sum := by
  unfold jsNumOrZero sqlSumCase
  by_cases h : rows.isEmpty
  · simp [h]
    rw [List.isEmpty_iff] at h
    simp [h]
  · simp [h]

/-! ## C2 — authentication failure statuses -/

/-- C2 counterexample: a request whose bearer token has an invalid signature
or has expired is answered with 403, not with the 401 the claim requires. -/
theorem C2_invalid_token_yields_403 :
    authenticateToken [] TokenOutcome.badSignatureOrExpired = AuthResult.err 403
    ∧ AuthResult.err 403 ≠ AuthResult.err 401 := by
  exact ⟨rfl, by decide⟩

/-- C2 amended: token verification fails with 403 when the signature is
invalid or the token expired, and with 401 when the token is missing or the
referenced user no longer exists; no authentication failure produces any
other status. -/
theorem C2_auth_status_amended (users : List User) (tok : TokenOutcome) :
    (tok = TokenOutcome.badSignatureOrExpired →
       authenticateToken users tok = AuthResult.err 403)
    ∧ (tok = TokenOutcome.missing → authenticateToken users tok = AuthResult.err 401)
    ∧ (∀ uid : Nat, tok = TokenOutcome.verified uid → findUser users uid = none →
       authenticateToken users tok = AuthResult.err 401)
    ∧ (∀ s : Nat, authenticateToken users tok = AuthResult.err s → s = 401 ∨ s = 403) := by
  refine ⟨?_, ?_, ?_, ?_⟩
  · rintro rfl; rfl
  · rintro rfl; rfl
  · rintro uid rfl hnone
    simp [authenticateToken, hnone]
  · intro s hs
    cases tok with
    | missing => simp [authenticateToken] at hs; omega
    | badSignatureOrExpired => simp [authenticateToken] at hs; omega
    | verified uid =>
      cases hfind : findUser users uid with
      | none => simp [authenticateToken, hfind] at hs; omega
      | some u => simp [authenticateToken, hfind] at hs

/-- C2 witness: the amended statuses at concrete inputs. -/
theorem C2_auth_status_witness :
    authenticateToken [] TokenOutcome.badSignatureOrExpired = AuthResult.err 403
    ∧ authenticateToken [] TokenOutcome.missing = AuthResult.err 401
    ∧ authenticateToken [] (TokenOutcome.verified 7) = AuthResult.err 401 :=
  ⟨(C2_auth_status_amended [] TokenOutcome.badSignatureOrExpired).1 rfl,
   (C2_auth_status_amended [] TokenOutcome.missing).2.1 rfl,
   (C2_auth_status_amended [] (TokenOutcome.verified 7)).2.2.1 7 rfl rfl⟩

/-! ## C3 — the permission table -/

/-- C3 counterexample: a principal whose role lies outside the enumeration
`admin / user / read-only` is nevertheless permitted the `read` action
(`hasPermission` answers the `read` case with `true` for every authenticated
user), refuting that every action is denied for unknown roles. -/
theorem C3_unknown_role_can_read :
    hasPermission (some ⟨1, "ghost@demo.com", "Ghost", "superuser"⟩) Action.read = true
    ∧ "superuser" ∉ (["admin", "user", "read-only"] : List String) := by
  exact ⟨rfl, by decide⟩

/-- C3 amended: the permission function is total and deterministic; `admin`
permits read, write and admin; `user` permits read and write; `read-only`
permits read; every role outside the enumeration is denied write and admin
but is still permitted read, and an unauthenticated caller is denied
everything. -/
theorem C3_permission_table_amended (u : User) (a : Action) :
    hasPermission none a = false
    ∧ (hasPermission (some u) a = true ↔
        (a = Action.read
         ∨ (a = Action.write ∧ (u.role = "admin" ∨ u.role = "user"))
         ∨ (a = Action.admin ∧ u.role = "admin"))) := by
  refine ⟨rfl, ?_⟩
  cases a <;> simp [hasPermission]

/-! ## C4 — ownership check answers 404, read-only answers 403 -/

/-- C4: on the update and delete endpoints, a `user`-role caller gets 404
whenever no transaction with the target id is owned by them — both when the
id belongs to another user and when it does not exist, indistinguishably; a
`read-only` caller gets 403 regardless of the target; an `admin` caller
reaches the write whenever the id exists, whoever owns it. -/
theorem C4_ownership_not_found (db : List Transaction) (caller : User) (txId : Nat) :
    (caller.role = "user" → (∀ t ∈ db, t.id = txId → t.userId ≠ caller.id) →
       putTransactionStatus db caller txId = 404
       ∧ deleteTransactionStatus db caller txId = 404)
    ∧ (caller.role = "read-only" →
       putTransactionStatus db caller txId = 403
       ∧ deleteTransactionStatus db caller txId = 403)
    ∧ (caller.role = "admin" → (∃ t ∈ db, t.id = txId) →
       putTransactionStatus db caller txId = 200
       ∧ deleteTransactionStatus db caller txId = 200) := by
  have hempty : (∀ t ∈ db, t.id = txId → t.userId ≠ caller.id) → caller.role ≠ "admin" →
      (ownerCheckRows db caller.role caller.id txId).isEmpty = true := by
    intro h hadm
    simp only [ownerCheckRows, List.isEmpty_iff, List.filter_eq_nil_iff]
    intro t ht
    simp [hadm]
    intro htid
    exact h t ht htid
  refine ⟨?_, ?_, ?_⟩
  · intro hrole h
    have hrr : requireRole ["admin", "user"] caller = true := by
      simp [requireRole, hrole]
    have he := hempty h (by rw [hrole]; decide)
    constructor <;> simp [putTransactionStatus, deleteTransactionStatus, hrr, he]
  · intro hrole
    have hrr : requireRole ["admin", "user"] caller = false := by
      simp [requireRole, hrole]
    constructor <;> simp [putTransactionStatus, deleteTransactionStatus, hrr]
  · rintro hrole ⟨t, ht, htid⟩
    have hrr : requireRole ["admin", "user"] caller = true := by
      simp [requireRole, hrole]
    have hmem : t ∈ ownerCheckRows db caller.role caller.id txId := by
      simp [ownerCheckRows, List.mem_filter, ht, htid, hrole]
    have he : (ownerCheckRows db caller.role caller.id txId).isEmpty = false := by
      rcases hxe : (ownerCheckRows db caller.role caller.id txId) with _ | ⟨x, xs⟩
      · rw [hxe] at hmem; simp at hmem
      · rfl
    constructor <;> simp [putTransactionStatus, deleteTransactionStatus, hrr, he]

/-- C4 witness: user 1 (role `user`) targeting transaction 3 owned by user 2
gets 404 on both write endpoints; a `read-only` caller gets 403; an admin
caller reaches the write. -/
theorem C4_ownership_not_found_witness :
    putTransactionStatus [⟨3, 2, TxType.expense, 7, "Tea", "Food", 95, 4⟩]
        ⟨1, "u@demo.com", "U", "user"⟩ 3 = 404
    ∧ deleteTransactionStatus [⟨3, 2, TxType.expense, 7, "Tea", "Food", 95, 4⟩]
        ⟨1, "u@demo.com", "U", "user"⟩ 3 = 404
    ∧ putTransactionStatus [⟨3, 2, TxType.expense, 7, "Tea", "Food", 95, 4⟩]
        ⟨1, "r@demo.com", "R", "read-only"⟩ 3 = 403
    ∧ putTransactionStatus [⟨3, 2, TxType.expense, 7, "Tea", "Food", 95, 4⟩]
        ⟨1, "a@demo.com", "A", "admin"⟩ 3 = 200 := by
  refine ⟨?_, ?_, ?_, ?_⟩
  · exact ((C4_ownership_not_found _ _ _).1 rfl (by decide)).1
  · exact ((C4_ownership_not_found _ _ _).1 rfl (by decide)).2
  · exact ((C4_ownership_not_found _ _ _).2.1 rfl).1
  · exact ((C4_ownership_not_found [⟨3, 2, TxType.expense, 7, "Tea", "Food", 95, 4⟩]
      ⟨1, "a@demo.com", "A", "admin"⟩ 3).2.2 rfl
      ⟨⟨3, 2, TxType.expense, 7, "Tea", "Food", 95, 4⟩, by decide, rfl⟩).1

/-! ## C8 — overview balance -/

/-- C8: the overview satisfies `balance = totalIncome - totalExpenses`, with
`totalIncome` the sum of the user's income-type amounts and `totalExpenses`
the sum of the user's expense-type amounts. -/
theorem C8_overview_balance (db : List Transaction) (uid : Nat) (monthOf : Nat → Nat)
    (sixMonthsAgo : Nat) :
    (analyticsOverview db uid monthOf sixMonthsAgo).balance
      = (analyticsOverview db uid monthOf sixMonthsAgo).totalIncome
        - (analyticsOverview db uid monthOf sixMonthsAgo).totalExpenses
    ∧ (analyticsOverview db uid monthOf sixMonthsAgo).totalIncome
      = (((userRows db uid).filter (fun t => t.type == TxType.income)).map
          (fun t => t.amount)).sum
    ∧ (analyticsOverview db uid monthOf sixMonthsAgo).totalExpenses
      = (((userRows db uid).filter (fun t => t.type == TxType.expense)).map
          (fun t => t.amount)).sum := by
  refine ⟨rfl, ?_, ?_⟩
  · show jsNumOrZero (sqlSumCase (userRows db uid) TxType.income) = _
    rw [jsNumOrZero_sqlSumCase, sumCase_eq_filterSum]
  · show jsNumOrZero (sqlSumCase (userRows db uid) TxType.expense) = _
    rw [jsNumOrZero_sqlSumCase, sumCase_eq_filterSum]

/-! ## C9 — yearlyComparison is hard-coded empty -/

/-- C9: for every database, user and time range, the `yearlyComparison`
component of the detailed analytics response is the empty list. -/
theorem C9_yearlyComparison_empty (db : List Transaction) (uid : Nat)
    (timeRange : String) (monthOf monthsAgo : Nat → Nat) :
    (analyticsDetailed db uid timeRange monthOf monthsAgo).yearlyComparison = [] := rfl

/-! ## C10 — overview of a user with no transactions -/

/-- C10: a user owning no transactions gets the all-zero overview with an
empty monthly trend — the `NULL` SQL sums are coerced to `0`, nothing fails. -/
theorem C10_overview_no_transactions (db : List Transaction) (uid : Nat)
    (monthOf : Nat → Nat) (sixMonthsAgo : Nat)
    (h : ∀ t ∈ db, t.userId ≠ uid) :
    analyticsOverview db uid monthOf sixMonthsAgo
      = { totalIncome := 0, totalExpenses := 0, balance := 0,
          transactionCount := 0, monthlyTrend := [] } := by
  have hm : userRows db uid = [] := by
    simp only [userRows, List.filter_eq_nil_iff]
    intro t ht
    simpa using h t ht
  simp [analyticsOverview, hm, trendRows, sqlSumCase, jsNumOrZero]

/-- C10 witness: a database holding only another user's transaction. -/
theorem C10_overview_no_transactions_witness :
    analyticsOverview [⟨3, 2, TxType.expense, 7, "Tea", "Food", 95, 4⟩] 1
        (fun d => d / 30) 0
      = { totalIncome := 0, totalExpenses := 0, balance := 0,
          transactionCount := 0, monthlyTrend := [] } :=
  C10_overview_no_transactions _ 1 (fun d => d / 30) 0 (by decide)

/-! ## C7 — the cache contract (memory backend + error absorption) -/

/-- Looking up a key right after `Map.set` of that key yields the entry. -/
theorem mapGet_mapSet_self {α : Type} (k : String) (e : MemEntry α) (m : MemCache α) :
    mapGet k (mapSet k e m) = some e := by
  induction m with
  | nil => simp [mapGet, mapSet, List.find?]
  | cons kv rest ih =>
    by_cases h : kv.1 == k
    · simp [mapSet, h, mapGet, List.find?]
    · simp only [mapSet, h, if_false, Bool.false_eq_true, ite_false]
      simpa [mapGet, List.find?, h] using ih

/-- A `find?` over a filtered list agrees with `find?` over the original
list when the filter keeps everything the search predicate accepts. -/
theorem find?_filter_of_imp {α : Type} (p q : α → Bool) (l : List α)
    (himp : ∀ x, q x = true → p x = true) :
    (l.filter p).find? q = l.find? q := by
  induction l with
  | nil => rfl
  | cons x xs ih =>
    by_cases hq : q x = true
    · have hp := himp x hq
      simp [List.filter_cons, hp, List.find?, hq]
    · by_cases hp : p x = true
      · simp [List.filter_cons, hp, List.find?, hq, ih]
      · simp only [List.filter_cons, hp, Bool.false_eq_true, ite_false]
        rw [ih, List.find?]
        simp [hq]

/-- After an invalidation whose pattern covers the key, the key is gone. -/
theorem mapGet_invalidate_covered {α : Type} (pat k : String) (m : MemCache α)
    (h : strIncludes k (jsReplaceStar pat) = true) :
    mapGet k (invalidateCache_memory pat m) = none := by
  have hn : (invalidateCache_memory pat m).find? (fun kv => kv.1 == k) = none := by
    rw [List.find?_eq_none]
    intro kv hkv
    rcases List.mem_filter.mp hkv with ⟨_, hkeep⟩
    simp only [Bool.not_eq_eq_eq_not, Bool.not_true] at hkeep
    intro hbeq
    rw [show kv.1 = k from by simpa using hbeq, h] at hkeep
    cases hkeep
  unfold mapGet
  rw [hn]
  rfl

/-- An invalidation whose pattern does not cover the key leaves lookups of
that key unchanged. -/
theorem mapGet_invalidate_uncovered {α : Type} (pat k : String) (m : MemCache α)
    (h : strIncludes k (jsReplaceStar pat) = false) :
    mapGet k (invalidateCache_memory pat m) = mapGet k m := by
  unfold mapGet invalidateCache_memory
  rw [find?_filter_of_imp]
  intro kv hbeq
  rw [show kv.1 = k from by simpa using hbeq]
  simp [h]

/-- C7: the cache contract of the in-process backend, plus error
absorption. A `get` after a `set` of the same key answers the stored value
strictly within the TTL window and misses from the expiry instant on; an
intervening invalidation not covering the key changes nothing, one covering
the key forces a miss; and a thrown backend error during `get` is absorbed
into a miss (`null`) instead of failing the request (`setCache` likewise
swallows its errors and returns normally, which the type of
`setCache_memory` — a total function — reflects). -/
theorem C7_cache_contract {α : Type} (m : MemCache α) (k pat : String) (v : α)
    (t0 t1 ttl : Nat) :
    ((getFromCache_memory t1 k (setCache_memory t0 k v ttl m)).1
       = if t1 < t0 + ttl * 1000 then some v else none)
    ∧ (strIncludes k (jsReplaceStar pat) = false →
       (getFromCache_memory t1 k
           (invalidateCache_memory pat (setCache_memory t0 k v ttl m))).1
         = if t1 < t0 + ttl * 1000 then some v else none)
    ∧ (strIncludes k (jsReplaceStar pat) = true →
       (getFromCache_memory t1 k
           (invalidateCache_memory pat (setCache_memory t0 k v ttl m))).1 = none)
    ∧ (∀ e : String, getFromCache_redis (Except.error e : Except String (Option α)) = none) := by
  refine ⟨?_, ?_, ?_, fun e => rfl⟩
  · rw [getFromCache_memory, setCache_memory, mapGet_mapSet_self]
    by_cases ht : t1 < t0 + ttl * 1000
    · simp [ht]
    · simp [ht]
  · intro h
    rw [getFromCache_memory, setCache_memory, mapGet_invalidate_uncovered _ _ _ h,
      mapGet_mapSet_self]
    by_cases ht : t1 < t0 + ttl * 1000
    · simp [ht]
    · simp [ht]
  · intro h
    rw [getFromCache_memory, setCache_memory, mapGet_invalidate_covered _ _ _ h]

/-- C7 witness: key `overview:1`, value 5, set at time 0 with the default
900-second TTL; read at times 500 and 900000; invalidations with a
non-covering and a covering pattern. -/
theorem C7_cache_contract_witness :
    (getFromCache_memory 500 "overview:1"
        (setCache_memory 0 "overview:1" (5 : Nat) 900 [])).1 = some 5
    ∧ (getFromCache_memory 900000 "overview:1"
        (setCache_memory 0 "overview:1" (5 : Nat) 900 [])).1 = none
    ∧ (getFromCache_memory 500 "overview:1"
        (invalidateCache_memory "analytics:1"
          (setCache_memory 0 "overview:1" (5 : Nat) 900 []))).1 = some 5
    ∧ (getFromCache_memory 500 "overview:1"
        (invalidateCache_memory "overview:1"
          (setCache_memory 0 "overview:1" (5 : Nat) 900 []))).1 = none := by
  refine ⟨?_, ?_, ?_, ?_⟩
  · have h := (C7_cache_contract [] "overview:1" "analytics:1" (5 : Nat) 0 500 900).1
    simpa using h
  · have h := (C7_cache_contract [] "overview:1" "analytics:1" (5 : Nat) 0 900000 900).1
    simpa using h
  · have h :=
      (C7_cache_contract [] "overview:1" "analytics:1" (5 : Nat) 0 500 900).2.1 (by decide)
    simpa using h
  · exact (C7_cache_contract [] "overview:1" "overview:1" (5 : Nat) 0 500 900).2.2.1
      (by decide)

/-! ## C1 — write-path cache invalidation misses the owner's entries

Every write handler invalidates `analytics:$\x7bid\x7d` and `overview:$\x7bid\x7d`
for `id = req.user.id`, the *caller*. When an admin mutates another user's
transaction, the owner's entries survive, and a later overview read for the
owner within the TTL still returns the pre-write payload. Independently, on
the Redis backend the pattern `analytics:$\x7bid\x7d` contains no `*`, so
`KEYS` matches no `analytics:$\x7bid\x7d:$\x7btimeRange\x7d` entry at all and the
detailed-analytics cache survives even a write by its own owner. -/

/-- C1 failing input, evaluated: admin (id 1) updates a transaction owned by
user 2 while the memory cache holds user 2's `overview:2` and
`analytics:2:3months` entries — both survive, and the subsequent overview
read for user 2 (time 500, within the TTL) still returns the stale payload
`10`. On the Redis backend even user 2's own write leaves
`analytics:2:3months` in place. -/
theorem C1_write_leaves_owner_cache_stale :
    writeInvalidation_memory 1
        ([("overview:2", ⟨10, 900000⟩), ("analytics:2:3months", ⟨20, 900000⟩)] :
          MemCache Nat)
      = [("overview:2", ⟨10, 900000⟩), ("analytics:2:3months", ⟨20, 900000⟩)]
    ∧ (getFromCache_memory 500 "overview:2"
        (writeInvalidation_memory 1
          ([("overview:2", ⟨10, 900000⟩), ("analytics:2:3months", ⟨20, 900000⟩)] :
            MemCache Nat))).1 = some 10
    ∧ writeInvalidation_redis 2 ([("analytics:2:3months", 20)] : RedisStore Nat)
      = [("analytics:2:3months", 20)] := by
  refine ⟨?_, ?_, ?_⟩ <;> decide

/-! ## C6 — the category breakdown -/

/-- The claim-side total: the sum of the amounts of the user's expense-type
transactions inside the selected window. -/
def windowExpensesTotal (db : List Transaction) (uid since : Nat) : ℚ :=
  ((expenseRows db uid since).map (fun t => t.amount)).sum

/-- Summing over a disjunctive filter splits into the two filters when no
element satisfies both arms. -/
theorem sum_filter_or_disjoint (rows : List Transaction) (p q : Transaction → Bool)
    (hdisj : ∀ t ∈ rows, ¬(p t = true ∧ q t = true)) :
    ((rows.filter (fun t => p t || q t)).map (fun t => t.amount)).sum
      = ((rows.filter p).map (fun t => t.amount)).sum
        + ((rows.filter q).map (fun t => t.amount)).sum := by
  induction rows with
  | nil => simp
  | cons t rest ih =>
    have hrest := ih (fun x hx => hdisj x (List.mem_cons_of_mem t hx))
    have hd := hdisj t (List.mem_cons_self t rest)
    simp only [List.filter_cons]
    cases hp : p t with
    | true =>
      have hq : q t = false := by
        cases hqt : q t
        · rfl
        · exact absurd ⟨hp, hqt⟩ hd
      simp [hp, hq, hrest]
      ring
    | false =>
      cases hq : q t with
      | true => simp [hp, hq, hrest]; ring
      | false => simp [hp, hq, hrest]

/-- Summing the per-category partial sums over a duplicate-free category
list equals the sum over the rows whose category lies in the list. -/
theorem sum_category_fibers (rows : List Transaction) (cs : List String) (hnd : cs.Nodup) :
    (cs.map (fun c =>
        ((rows.filter (fun t => t.category == c)).map (fun t => t.amount)).sum)).sum
      = ((rows.filter (fun t => cs.contains t.category)).map (fun t => t.amount)).sum := by
  induction cs with
  | nil => simp
  | cons c cs' ih =>
    rcases List.nodup_cons.mp hnd with ⟨hc, hnd'⟩
    have hsplit : rows.filter (fun t => (c :: cs').contains t.category)
        = rows.filter (fun t => (t.category == c) || cs'.contains t.category) := by
      apply List.filter_congr
      intro t _
      rw [List.contains_cons]
    rw [List.map_cons, List.sum_cons, hsplit,
      sum_filter_or_disjoint rows _ _ ?_, ih hnd']
    intro t _
    rintro ⟨hp, hq⟩
    rw [show t.category = c from by simpa using hp] at hq
    exact hc (by simpa using hq)

/-- Every row's category lies in the deduplicated category list, so the
containment filter keeps everything. -/
theorem filter_contains_categories (rows : List Transaction) :
    rows.filter
        (fun t => ((rows.map (fun t => t.category)).dedup).contains t.category) = rows := by
  rw [List.filter_eq_self]
  intro t ht
  have : t.category ∈ (rows.map (fun t => t.category)).dedup :=
    List.mem_dedup.mpr (List.mem_map_of_mem _ ht)
  simpa using this

/-- The amounts of the category query rows add up to the total expenses of
the window: grouping loses nothing. -/
theorem categoryRows_total (rows : List Transaction) :
    ((categoryRows rows).map (fun r => r.2.1)).sum
      = (rows.map (fun t => t.amount)).sum := by
  have hperm :
      List.Perm ((categoryRows rows).map (fun r => r.2.1))
        ((((rows.map (fun t => t.category)).dedup).map (fun c =>
            (c, ((rows.filter (fun t => t.category == c)).map (fun t => t.amount)).sum,
              (rows.filter (fun t => t.category == c)).length))).map (fun r => r.2.1)) :=
    (List.mergeSort_perm _ _).map _
  rw [hperm.sum_eq, List.map_map]
  have h2 := sum_category_fibers rows ((rows.map (fun t => t.category)).dedup)
    (List.nodup_dedup _)
  have h3 := filter_contains_categories rows
  rw [h3] at h2
  exact h2

/-- `categoryRows` with its `let` bindings spelled out. -/
theorem categoryRows_eq (rows : List Transaction) :
    categoryRows rows
      = (((rows.map (fun t => t.category)).dedup).map (fun c =>
          (c, ((rows.filter (fun t => t.category == c)).map (fun t => t.amount)).sum,
            (rows.filter (fun t => t.category == c)).length))).mergeSort
          (fun a b => decide (b.2.1 ≤ a.2.1)) := rfl

/-- `categoryBreakdownOf` with its `let` bindings spelled out. -/
theorem categoryBreakdownOf_eq (rows : List Transaction) :
    categoryBreakdownOf rows
      = (categoryRows rows).map (fun r =>
          { category := r.1, amount := r.2.1,
            percentage := if 0 < ((categoryRows rows).map (fun r => r.2.1)).sum
              then r.2.1 / ((categoryRows rows).map (fun r => r.2.1)).sum * 100 else 0,
            count := r.2.2 }) := rfl

/-- The category query rows are sorted by amount, descending. -/
theorem categoryRows_sorted (rows : List Transaction) :
    (categoryRows rows).Pairwise (fun r s => s.2.1 ≤ r.2.1) := by
  rw [categoryRows_eq]
  have h := @List.sorted_mergeSort (String × ℚ × Nat)
    (fun a b => decide (b.2.1 ≤ a.2.1))
    (fun a b c hab hbc => by
      simp only [decide_eq_true_eq] at hab hbc ⊢
      exact le_trans hbc hab)
    (fun a b => by
      simp only [Bool.or_eq_true, decide_eq_true_eq]
      exact le_total b.2.1 a.2.1)
    (((rows.map (fun t => t.category)).dedup).map (fun c =>
      (c, ((rows.filter (fun t => t.category == c)).map (fun t => t.amount)).sum,
        (rows.filter (fun t => t.category == c)).length)))
  refine h.imp ?_
  intro a b hab
  simpa using hab

/-- Distributing `/ T * 100` over a sum of category rows. -/
theorem sum_map_div_mul (l : List (String × ℚ × Nat)) (T : ℚ) :
    (l.map (fun r => r.2.1 / T * 100)).sum = (l.map (fun r => r.2.1)).sum / T * 100 := by
  induction l with
  | nil => simp
  | cons r rest ih => simp [ih]; ring

/-- The full characterisation of the category breakdown over an arbitrary
expense row set: sorted by amount descending; every entry carries its
category's amount-sum and row count and the percentage formula against the
overall total; the entries' categories are exactly the distinct categories
of the rows; percentages add up to exactly 100 when the total is positive
and all vanish when it is zero. -/
theorem categoryBreakdownOf_spec (rows : List Transaction) :
    (categoryBreakdownOf rows).Pairwise (fun a b => b.amount ≤ a.amount)
    ∧ (∀ e ∈ categoryBreakdownOf rows,
        e.amount
            = ((rows.filter (fun t => t.category == e.category)).map (fun t => t.amount)).sum
        ∧ e.count = (rows.filter (fun t => t.category == e.category)).length
        ∧ e.category ∈ rows.map (fun t => t.category)
        ∧ e.percentage = (if 0 < (rows.map (fun t => t.amount)).sum then
            e.amount / (rows.map (fun t => t.amount)).sum * 100 else 0))
    ∧ (∀ c ∈ rows.map (fun t => t.category), ∃ e ∈ categoryBreakdownOf rows, e.category = c)
    ∧ ((categoryBreakdownOf rows).map (fun e => e.category)).Nodup
    ∧ (0 < (rows.map (fun t => t.amount)).sum →
        ((categoryBreakdownOf rows).map (fun e => e.percentage)).sum = 100)
    ∧ ((rows.map (fun t => t.amount)).sum = 0 →
        ∀ e ∈ categoryBreakdownOf rows, e.percentage = 0) := by
  have hTc := categoryRows_total rows
  refine ⟨?_, ?_, ?_, ?_, ?_, ?_⟩
  · rw [categoryBreakdownOf_eq, List.pairwise_map]
    exact categoryRows_sorted rows
  · intro e he
    rw [categoryBreakdownOf_eq] at he
    rcases List.mem_map.mp he with ⟨r, hr, rfl⟩
    rw [categoryRows_eq] at hr
    rcases List.mem_map.mp (List.mem_mergeSort.mp hr) with ⟨c, hc, rfl⟩
    refine ⟨rfl, rfl, ?_, ?_⟩
    · exact List.mem_dedup.mp hc
    · show (if 0 < ((categoryRows rows).map (fun r => r.2.1)).sum then _ else 0) = _
      rw [hTc]
  · intro c hc
    rw [categoryBreakdownOf_eq]
    refine ⟨_, List.mem_map.mpr ⟨(c,
      ((rows.filter (fun t => t.category == c)).map (fun t => t.amount)).sum,
      (rows.filter (fun t => t.category == c)).length), ?_, rfl⟩, rfl⟩
    rw [categoryRows_eq]
    exact List.mem_mergeSort.mpr
      (List.mem_map.mpr ⟨c, List.mem_dedup.mpr hc, rfl⟩)
  · rw [categoryBreakdownOf_eq, List.map_map]
    have hperm :
        List.Perm ((categoryRows rows).map (fun r => r.1))
          ((((rows.map (fun t => t.category)).dedup).map (fun c =>
            (c, ((rows.filter (fun t => t.category == c)).map (fun t => t.amount)).sum,
              (rows.filter (fun t => t.category == c)).length))).map (fun r => r.1)) := by
      rw [categoryRows_eq]
      exact (List.mergeSort_perm _ _).map _
    have hnd : ((categoryRows rows).map (fun r => r.1)).Nodup := by
      refine hperm.nodup_iff.mpr ?_
      rw [List.map_map]
      have : ((rows.map (fun t => t.category)).dedup).map
          ((fun r : String × ℚ × Nat => r.1) ∘ (fun c =>
            (c, ((rows.filter (fun t => t.category == c)).map (fun t => t.amount)).sum,
              (rows.filter (fun t => t.category == c)).length)))
          = (rows.map (fun t => t.category)).dedup := List.map_id' _
      rw [this]
      exact List.nodup_dedup _
    exact hnd
  · intro hT
    have hTc0 : 0 < ((categoryRows rows).map (fun r => r.2.1)).sum := by rw [hTc]; exact hT
    rw [categoryBreakdownOf_eq, List.map_map]
    have hfun :
        ((fun e : CatEntry => e.percentage) ∘ (fun r : String × ℚ × Nat =>
          ({ category := r.1, amount := r.2.1,
             percentage := if 0 < ((categoryRows rows).map (fun r => r.2.1)).sum
               then r.2.1 / ((categoryRows rows).map (fun r => r.2.1)).sum * 100 else 0,
             count := r.2.2 } : CatEntry)))
          = fun r : String × ℚ × Nat =>
              r.2.1 / ((categoryRows rows).map (fun r => r.2.1)).sum * 100 := by
      funext r
      simp [hTc0]
    rw [hfun, sum_map_div_mul, div_self (ne_of_gt hTc0), one_mul]
  · intro hT e he
    have hTc0 : ((categoryRows rows).map (fun r => r.2.1)).sum = 0 := by rw [hTc]; exact hT
    rw [categoryBreakdownOf_eq] at he
    rcases List.mem_map.mp he with ⟨r, hr, rfl⟩
    show (if 0 < ((categoryRows rows).map (fun r => r.2.1)).sum then _ else 0) = 0
    rw [hTc0]
    simp

/-- C6: for every user and timeRange, the detailed-analytics category
breakdown groups exactly the expense-type transactions of the selected
window by category — each entry carrying the category's amount-sum and row
count — sorted by amount descending, with
`percentage = amount / totalExpenses * 100` against the window's total
expenses when that total is positive (the percentages then summing to
exactly 100 in exact arithmetic) and every percentage equal to 0 when the
total is 0, with no division by zero. -/
theorem C6_category_breakdown (db : List Transaction) (uid : Nat) (timeRange : String)
    (monthOf monthsAgo : Nat → Nat) :
    ((analyticsDetailed db uid timeRange monthOf monthsAgo).categoryBreakdown.Pairwise
        (fun a b => b.amount ≤ a.amount))
    ∧ (∀ e ∈ (analyticsDetailed db uid timeRange monthOf monthsAgo).categoryBreakdown,
        e.amount
            = (((expenseRows db uid (monthsAgo (timeRangeMonths timeRange))).filter
                (fun t => t.category == e.category)).map (fun t => t.amount)).sum
        ∧ e.count
            = ((expenseRows db uid (monthsAgo (timeRangeMonths timeRange))).filter
                (fun t => t.category == e.category)).length
        ∧ e.category
            ∈ (expenseRows db uid (monthsAgo (timeRangeMonths timeRange))).map
                (fun t => t.category)
        ∧ e.percentage
            = (if 0 < windowExpensesTotal db uid (monthsAgo (timeRangeMonths timeRange))
               then e.amount
                 / windowExpensesTotal db uid (monthsAgo (timeRangeMonths timeRange)) * 100
               else 0))
    ∧ (∀ c ∈ (expenseRows db uid (monthsAgo (timeRangeMonths timeRange))).map
          (fun t => t.category),
        ∃ e ∈ (analyticsDetailed db uid timeRange monthOf monthsAgo).categoryBreakdown,
          e.category = c)
    ∧ ((analyticsDetailed db uid timeRange monthOf monthsAgo).categoryBreakdown.map
        (fun e => e.category)).Nodup
    ∧ (0 < windowExpensesTotal db uid (monthsAgo (timeRangeMonths timeRange)) →
        ((analyticsDetailed db uid timeRange monthOf monthsAgo).categoryBreakdown.map
          (fun e => e.percentage)).sum = 100)
    ∧ (windowExpensesTotal db uid (monthsAgo (timeRangeMonths timeRange)) = 0 →
        ∀ e ∈ (analyticsDetailed db uid timeRange monthOf monthsAgo).categoryBreakdown,
          e.percentage = 0) :=
  categoryBreakdownOf_spec (expenseRows db uid (monthsAgo (timeRangeMonths timeRange)))

/-- A concrete stand-in for the external `TO_CHAR(date, 'YYYY-MM')` bucket
function: thirty-day months. -/
def demoMonthOf (d : Nat) : Nat := d / 30

/-- A concrete stand-in for the external `CURRENT_DATE - INTERVAL 'm months'`
computation, with "today" at day 360. -/
def demoMonthsAgo (m : Nat) : Nat := 360 - 30 * m

/-- C6 witness: two expense transactions (30 and 70) of user 1 inside the
3-month window make the percentages sum to exactly 100; with no
transactions the total is 0 and every percentage is 0. -/
theorem C6_category_breakdown_witness :
    ((analyticsDetailed
        [⟨1, 1, TxType.expense, 30, "Coffee", "Food", 300, 1⟩,
         ⟨2, 1, TxType.expense, 70, "Rent", "Housing", 320, 2⟩] 1 "3months"
        demoMonthOf demoMonthsAgo).categoryBreakdown.map (fun e => e.percentage)).sum = 100
    ∧ (∀ e ∈ (analyticsDetailed ([] : List Transaction) 1 "3months"
        demoMonthOf demoMonthsAgo).categoryBreakdown, e.percentage = 0) := by
  constructor
  · refine (C6_category_breakdown
        [⟨1, 1, TxType.expense, 30, "Coffee", "Food", 300, 1⟩,
         ⟨2, 1, TxType.expense, 70, "Rent", "Housing", 320, 2⟩] 1 "3months"
        demoMonthOf demoMonthsAgo).2.2.2.2.1 ?_
    show (0:ℚ) < windowExpensesTotal _ 1 (demoMonthsAgo (timeRangeMonths "3months"))
    norm_num [windowExpensesTotal, expenseRows, demoMonthsAgo, timeRangeMonths,
      List.filter_cons]
  · exact (C6_category_breakdown [] 1 "3months" demoMonthOf demoMonthsAgo).2.2.2.2.2 rfl

/-! ## C5 — the listing contract

The claim-side reading of the search filter: the description or the
category *contains the search string* case-insensitively. The code-side
filter is `ILIKE '%' || search || '%'`, which additionally interprets `%`,
`_` and `\\` inside `search` as pattern syntax; the two readings agree
exactly when `search` carries none of those three characters. -/

/-- Case-insensitive substring containment (the claim's wording). -/
def containsCI (s sub : String) : Bool :=
  charsInclude (sub.data.map Char.toLower) (s.data.map Char.toLower)

/-- The claim-side row filter: owned by the user and, when the search string
is non-empty, the description or the category contains it
case-insensitively. -/
def specMatches (userId : Nat) (search : String) (t : Transaction) : Bool :=
  t.userId == userId &&
    (search == "" || containsCI t.description search || containsCI t.category search)

/-- The claim-side ordering: date descending, then creation time
descending. -/
def specOrder (a b : Transaction) : Prop :=
  b.date < a.date ∨ (b.date = a.date ∧ b.createdAt ≤ a.createdAt)

/-- `txBefore` decides `specOrder`. -/
theorem txBefore_iff (a b : Transaction) : txBefore a b = true ↔ specOrder a b := by
  simp [txBefore, specOrder, Nat.blt_eq, Nat.ble_eq]

/-- `txBefore` is total. -/
theorem txBefore_total (a b : Transaction) : (txBefore a b || txBefore b a) = true := by
  simp only [Bool.or_eq_true, txBefore_iff]
  unfold specOrder
  omega

/-- `txBefore` is transitive. -/
theorem txBefore_trans (a b c : Transaction)
    (h1 : txBefore a b = true) (h2 : txBefore b c = true) : txBefore a c = true := by
  rw [txBefore_iff] at h1 h2 ⊢
  unfold specOrder at h1 h2 ⊢
  omega

/-- `anySuffix` accepts whenever the function accepts the empty suffix. -/
theorem anySuffix_of_nil (f : List Char → Bool) (h : f [] = true) :
    ∀ s, anySuffix f s = true
  | [] => h
  | _ :: cs => by
    rw [anySuffix, anySuffix_of_nil f h cs, Bool.or_true]

/-- `likeMatch` with a leading `%` scans over every suffix. -/
theorem likeMatch_percent_cons (ps : List Char) (s : List Char) :
    likeMatch ('%' :: ps) s = anySuffix (likeMatch ps) s := by
  cases s with
  | nil => rw [likeMatch, if_pos rfl]
  | cons c cs => rw [likeMatch, if_pos rfl]

/-- A wildcard-free pattern followed by `%` matches exactly the strings it
prefixes. -/
theorem likeMatch_append_percent (p : List Char)
    (hp : ∀ c ∈ p, c ≠ '%' ∧ c ≠ '_' ∧ c ≠ '\\') :
    ∀ s, likeMatch (p ++ ['%']) s = p.isPrefixOf s := by
  induction p with
  | nil =>
    intro s
    rw [List.nil_append, List.isPrefixOf_nil_left, likeMatch_percent_cons]
    exact anySuffix_of_nil _ rfl s
  | cons a p' ih =>
    intro s
    rcases hp a (List.mem_cons_self a p') with ⟨h1, h2, _⟩
    have ih' := ih (fun c hc => hp c (List.mem_cons_of_mem a hc))
    rw [List.cons_append]
    cases s with
    | nil => rw [likeMatch, if_neg h1]; rfl
    | cons c cs =>
      rw [likeMatch, if_neg h1, if_neg h2, ih' cs]
      rfl

/-- `'%' ++ p ++ '%'` with a wildcard-free `p` matches exactly the strings
containing `p`. -/
theorem likeMatch_wrap (p : List Char)
    (hp : ∀ c ∈ p, c ≠ '%' ∧ c ≠ '_' ∧ c ≠ '\\') :
    ∀ s, likeMatch ('%' :: (p ++ ['%'])) s = charsInclude p s := by
  intro s
  induction s with
  | nil =>
    rw [likeMatch_percent_cons]
    show likeMatch (p ++ ['%']) [] = _
    rw [likeMatch_append_percent p hp]
    cases p <;> rfl
  | cons c cs ih =>
    rw [likeMatch_percent_cons]
    show (likeMatch (p ++ ['%']) (c :: cs) || anySuffix (likeMatch (p ++ ['%'])) cs) = _
    rw [likeMatch_append_percent p hp, ← likeMatch_percent_cons, ih]
    rfl

/-- `Char.toLower` either fixes its argument or lands in the lowercase
letter range 97–122. -/
theorem toLower_eq_self_or_in_range (c : Char) :
    c.toLower = c ∨ (97 ≤ c.toLower.toNat ∧ c.toLower.toNat ≤ 122) := by
  unfold Char.toLower
  by_cases h : c.toNat ≥ 65 ∧ c.toNat ≤ 90
  · right
    rw [if_pos h]
    have hn : (Char.ofNat (c.toNat + 32)).toNat = c.toNat + 32 := by
      have hv : (c.toNat + 32).isValidChar := Or.inl (by omega)
      rw [Char.ofNat, dif_pos hv]
      simp [Char.ofNatAux, Char.toNat, UInt32.toNat, BitVec.toNat_ofNatLt]
    rw [hn]
    omega
  · left
    rw [if_neg h]

/-- Lowercasing never introduces LIKE metacharacters. -/
theorem toLower_nonmeta (c : Char) (h : c ≠ '%' ∧ c ≠ '_' ∧ c ≠ '\\') :
    c.toLower ≠ '%' ∧ c.toLower ≠ '_' ∧ c.toLower ≠ '\\' := by
  rcases toLower_eq_self_or_in_range c with heq | ⟨h1, h2⟩
  · rw [heq]; exact h
  · refine ⟨?_, ?_, ?_⟩ <;> intro hx <;> rw [hx] at h1 h2 <;> revert h1 h2 <;> decide

/-- For a search string free of `%`, `_` and `\\`, the handler's
`ILIKE '%' || search || '%'` test is exactly case-insensitive substring
containment. -/
theorem ilike_wrap (s search : String)
    (hs : ∀ c ∈ search.data, c ≠ '%' ∧ c ≠ '_' ∧ c ≠ '\\') :
    ilike s ("%" ++ search ++ "%") = containsCI s search := by
  unfold ilike containsCI
  have hdata : ("%" ++ search ++ "%").data = '%' :: (search.data ++ ['%']) := by
    simp [String.data_append]
  rw [hdata, List.map_cons, List.map_append]
  show likeMatch ('%' :: (search.data.map Char.toLower ++ ['%'])) _ = _
  exact likeMatch_wrap (search.data.map Char.toLower)
    (fun c hc => by
      rcases List.mem_map.mp hc with ⟨d, hd, rfl⟩
      exact toLower_nonmeta d (hs d hd))
    (s.data.map Char.toLower)

/-- Under the same restriction the SQL `WHERE` clause coincides with the
claim-side filter. -/
theorem rowMatches_eq_specMatches (uid : Nat) (search : String)
    (hs : ∀ c ∈ search.data, c ≠ '%' ∧ c ≠ '_' ∧ c ≠ '\\') (t : Transaction) :
    rowMatches uid search t = specMatches uid search t := by
  unfold rowMatches specMatches
  rw [ilike_wrap _ _ hs, ilike_wrap _ _ hs]

/-- `Math.ceil(N / limit)` dominates `N / limit`: `N` rows fit in
`totalPages` pages of size `limit`. -/
theorem totalCount_le_ceil_mul (N limit : Nat) (hl : 1 ≤ limit) :
    N ≤ (⌈(N : ℚ) / (limit : ℚ)⌉).toNat * limit := by
  have hlq : (0 : ℚ) < (limit : ℚ) := by exact_mod_cast hl
  have h0 : (0 : ℤ) ≤ ⌈(N : ℚ) / (limit : ℚ)⌉ :=
    Int.ceil_nonneg (div_nonneg (Nat.cast_nonneg N) (le_of_lt hlq))
  have hle : (N : ℚ) / (limit : ℚ) ≤ (⌈(N : ℚ) / (limit : ℚ)⌉ : ℚ) := Int.le_ceil _
  have h1 : (N : ℚ) ≤ (⌈(N : ℚ) / (limit : ℚ)⌉ : ℚ) * (limit : ℚ) :=
    (div_le_iff₀ hlq).mp hle
  have h2 : (N : ℚ) ≤ ((⌈(N : ℚ) / (limit : ℚ)⌉.toNat : ℚ)) * (limit : ℚ) := by
    rwa [show ((⌈(N : ℚ) / (limit : ℚ)⌉.toNat : ℚ)) = (⌈(N : ℚ) / (limit : ℚ)⌉ : ℚ) by
      exact_mod_cast congrArg (fun z : ℤ => (z : ℚ)) (Int.toNat_of_nonneg h0)]
  exact_mod_cast h2

/-- C5 counterexample: with search string `"%"` (non-empty, so the filter is
active), the single transaction `Coffee / Food` is returned even though
neither its description nor its category contains the character `%`: the
search string is interpreted as an `ILIKE` wildcard, not as a literal
substring as the claim states. -/
theorem C5_wildcard_search_counterexample :
    (listTransactions [⟨1, 1, TxType.expense, 5, "Coffee", "Food", 10, 1⟩] 1 1 10
        "%").transactions
      = [⟨1, 1, TxType.expense, 5, "Coffee", "Food", 10, 1⟩]
    ∧ containsCI "Coffee" "%" = false
    ∧ containsCI "Food" "%" = false
    ∧ ("%" == "") = false := by
  refine ⟨?_, by decide, by decide, by decide⟩
  have hf : [(⟨1, 1, TxType.expense, 5, "Coffee", "Food", 10, 1⟩ : Transaction)].filter
      (rowMatches 1 "%")
      = [⟨1, 1, TxType.expense, 5, "Coffee", "Food", 10, 1⟩] := by decide
  show ((([(⟨1, 1, TxType.expense, 5, "Coffee", "Food", 10, 1⟩ : Transaction)].filter
      (rowMatches 1 "%")).mergeSort txBefore).drop ((1 - 1) * 10)).take 10 = _
  rw [hf, List.mergeSort_singleton]
  rfl

/-- C5 amended: for every user, page and page size (both at least 1), and
every search string containing none of the `ILIKE` metacharacters `%`, `_`
and `\\` (for other search strings those characters act as SQL wildcards,
not literal text): the listing returns exactly the slice
`[(page-1)*pageSize, page*pageSize)` of the user's transactions filtered by
case-insensitive substring containment of the search string in description
or category (all of them when the search string is empty), ordered by date
descending then creation time descending; `totalCount` is the size of the
filtered set; `totalPages = ceil(totalCount / pageSize)`; and any page
beyond `totalPages` yields an empty list without error. -/
theorem C5_list_contract_amended (db : List Transaction) (uid page limit : Nat)
    (search : String) (hpage : 1 ≤ page) (hlimit : 1 ≤ limit)
    (hsearch : ∀ c ∈ search.data, c ≠ '%' ∧ c ≠ '_' ∧ c ≠ '\\') :
    List.Perm ((db.filter (specMatches uid search)).mergeSort txBefore)
        (db.filter (specMatches uid search))
    ∧ ((db.filter (specMatches uid search)).mergeSort txBefore).Pairwise specOrder
    ∧ (listTransactions db uid page limit search).transactions
        = (((db.filter (specMatches uid search)).mergeSort txBefore).drop
            ((page - 1) * limit)).take limit
    ∧ (listTransactions db uid page limit search).pagination.totalCount
        = (db.filter (specMatches uid search)).length
    ∧ ((listTransactions db uid page limit search).pagination.totalPages : ℤ)
        = ⌈((db.filter (specMatches uid search)).length : ℚ) / (limit : ℚ)⌉
    ∧ ((listTransactions db uid page limit search).pagination.totalPages < page →
        (listTransactions db uid page limit search).transactions = []) := by
  have hfilter : db.filter (rowMatches uid search) = db.filter (specMatches uid search) :=
    List.filter_congr (fun t _ => rowMatches_eq_specMatches uid search hsearch t)
  have hlq : (0 : ℚ) < (limit : ℚ) := by exact_mod_cast hlimit
  have h0 : (0 : ℤ) ≤ ⌈((db.filter (specMatches uid search)).length : ℚ) / (limit : ℚ)⌉ :=
    Int.ceil_nonneg (div_nonneg (Nat.cast_nonneg _) (le_of_lt hlq))
  refine ⟨List.mergeSort_perm _ _, ?_, ?_, ?_, ?_, ?_⟩
  · exact ((List.sorted_mergeSort (fun a b c => txBefore_trans a b c)
      txBefore_total (db.filter (specMatches uid search))).imp
      (fun h => (txBefore_iff _ _).mp h))
  · show (((db.filter (rowMatches uid search)).mergeSort txBefore).drop
        ((page - 1) * limit)).take limit = _
    rw [hfilter]
  · show (db.filter (rowMatches uid search)).length = _
    rw [hfilter]
  · show ((⌈((db.filter (rowMatches uid search)).length : ℚ) / (limit : ℚ)⌉.toNat : ℤ)
        = _)
    rw [hfilter, Int.toNat_of_nonneg h0]
  · intro hgt
    show (((db.filter (rowMatches uid search)).mergeSort txBefore).drop
        ((page - 1) * limit)).take limit = []
    rw [hfilter]
    have hlen : ((db.filter (specMatches uid search)).mergeSort txBefore).length
        = (db.filter (specMatches uid search)).length := List.length_mergeSort _
    have hN := totalCount_le_ceil_mul (db.filter (specMatches uid search)).length limit
      hlimit
    have hpages : (⌈((db.filter (specMatches uid search)).length : ℚ) / (limit : ℚ)⌉.toNat)
        < page := by
      have : (listTransactions db uid page limit search).pagination.totalPages
          = (⌈((db.filter (rowMatches uid search)).length : ℚ) / (limit : ℚ)⌉.toNat) := rfl
      rw [this, hfilter] at hgt
      exact hgt
    have hdrop : (db.filter (specMatches uid search)).length ≤ (page - 1) * limit := by
      have h1 : (⌈((db.filter (specMatches uid search)).length : ℚ) / (limit : ℚ)⌉.toNat)
          ≤ page - 1 := by omega
      calc (db.filter (specMatches uid search)).length
          ≤ (⌈((db.filter (specMatches uid search)).length : ℚ) / (limit : ℚ)⌉.toNat)
            * limit := hN
        _ ≤ (page - 1) * limit := Nat.mul_le_mul_right limit h1
    rw [List.drop_eq_nil_of_le (by rw [hlen]; exact hdrop), List.take_nil]

/-- C5 witness: one transaction, page 1 of size 10, search `"off"` (free of
wildcard characters, matched case-insensitively inside `"Coffee"`). -/
theorem C5_list_contract_witness :
    List.Perm (([(⟨1, 1, TxType.expense, 5, "Coffee", "Food", 10, 1⟩ : Transaction)].filter
          (specMatches 1 "off")).mergeSort txBefore)
        ([(⟨1, 1, TxType.expense, 5, "Coffee", "Food", 10, 1⟩ : Transaction)].filter
          (specMatches 1 "off"))
    ∧ (([(⟨1, 1, TxType.expense, 5, "Coffee", "Food", 10, 1⟩ : Transaction)].filter
          (specMatches 1 "off")).mergeSort txBefore).Pairwise specOrder
    ∧ (listTransactions [⟨1, 1, TxType.expense, 5, "Coffee", "Food", 10, 1⟩] 1 1 10
          "off").transactions
        = ((([(⟨1, 1, TxType.expense, 5, "Coffee", "Food", 10, 1⟩ : Transaction)].filter
            (specMatches 1 "off")).mergeSort txBefore).drop ((1 - 1) * 10)).take 10
    ∧ (listTransactions [⟨1, 1, TxType.expense, 5, "Coffee", "Food", 10, 1⟩] 1 1 10
          "off").pagination.totalCount
        = ([(⟨1, 1, TxType.expense, 5, "Coffee", "Food", 10, 1⟩ : Transaction)].filter
            (specMatches 1 "off")).length
    ∧ ((listTransactions [⟨1, 1, TxType.expense, 5, "Coffee", "Food", 10, 1⟩] 1 1 10
          "off").pagination.totalPages : ℤ)
        = ⌈(([(⟨1, 1, TxType.expense, 5, "Coffee", "Food", 10, 1⟩ : Transaction)].filter
            (specMatches 1 "off")).length : ℚ) / ((10 : Nat) : ℚ)⌉
    ∧ ((listTransactions [⟨1, 1, TxType.expense, 5, "Coffee", "Food", 10, 1⟩] 1 1 10
          "off").pagination.totalPages < 1 →
        (listTransactions [⟨1, 1, TxType.expense, 5, "Coffee", "Food", 10, 1⟩] 1 1 10
          "off").transactions = []) :=
  C5_list_contract_amended [⟨1, 1, TxType.expense, 5, "Coffee", "Food", 10, 1⟩] 1 1 10
    "off" (by decide) (by decide) (by decide)

end ExpenseTracker
